import Mathlib

/-!
# A shallow embedding of `httpapitest` (Go) in Lean 4

This file models the single source file `httpapitest.go` of the
`janos/httpapitest` repository: the `Request` helper, its thirteen option
constructors, the `options` configuration record, and the streaming
body comparator `readerContentEqual`.

Modelling conventions:
* Go byte slices are `List Nat` (one `Nat` per byte; all concrete inputs
  used below are ASCII, so `String.toList.map Char.toNat` agrees with Go's
  byte view of the string).
* A Go `io.Reader` is modelled by the queue of results its successive
  `Read` calls produce (`RState`): each entry is a chunk of bytes together
  with the error value returned alongside it.  Reading with a buffer of
  size `n` takes at most `n` bytes from the front of the queue; an
  exhausted queue answers `(0, io.EOF)`.  A `bytes.Reader` over data `d`
  is `[(d, .ok)]`; a reader that returns data together with `io.EOF` is
  `[(d, .eof)]`; a failing reader ends in `(c, .ioErr msg)`.
* `testing.TB` effects are reified as events (`TEvent`): `t.Errorf` calls
  become structured non-fatal events carrying the format-verb arguments,
  `t.Fatal`/`t.Fatalf` become a terminal `.fatal` event.
* The comparator loop of `readerContentEqual` may genuinely diverge on
  pathological readers (both sides repeatedly reading zero bytes with a
  nil error), so it is modelled with explicit fuel; `none` means the fuel
  ran out, and every concrete statement below supplies enough fuel.
-/

namespace Httpapitest

/-- Go byte slices, one `Nat` per byte. -/
abbrev Bytes := List Nat

/-- Byte view of an ASCII string (Go `[]byte(s)`). -/
def strBytes (s : String) : Bytes := s.toList.map Char.toNat

/-- The error component of a Go `io.Reader.Read` result: `nil`, `io.EOF`,
or any other error (carrying its message). -/
inductive RErr where
  | ok
  | eof
  | ioErr (msg : String)
deriving DecidableEq

/-- Model of an `io.Reader`: the queue of pending read results. -/
abbrev RState := List (Bytes × RErr)

/-- One `Read` call with a buffer of length `bufLen`: from the front entry
`(c, e)`, if `c` fits in the buffer the whole chunk and its error are
returned; otherwise the first `bufLen` bytes are returned with a nil error
and the rest stays queued (as `bytes.Reader` does).  An exhausted reader
returns `(0, io.EOF)`. -/
def readBuf : RState → Nat → Bytes × RErr × RState
  | [], _ => ([], RErr.eof, [])
  | (c, e) :: rest, bufLen =>
    if c.length ≤ bufLen then (c, e, rest)
    else (c.take bufLen, RErr.ok, (c.drop bufLen, e) :: rest)

/-- Outcome of `readerContentEqual` (source lines 307-339):
`t.Fatalf` on a read error of the input (actual) or validation (expected)
side, `t.Errorf` + return on unequal chunks, or the `io.EOF` break. -/
inductive CmpResult where
  | fatalInput (pos : Nat) (msg : String)
  | fatalValidation (pos : Nat) (msg : String)
  | notEqual (pos : Nat) (got want : Bytes)
  | equal
deriving DecidableEq

/-- `const bufSize = 128` from the source. -/
def bufSize : Nat := 128

/-- The loop of `readerContentEqual`.  Per iteration it reads the actual
side `s1` into a buffer of length `b1`, then the expected side `s2` into a
buffer of length `b2`.  The Go source reslices each buffer to the byte
count just read (`buf1 = buf1[:n1]`), so the next iteration's buffer
lengths are the current read counts; the `err == io.EOF` break tests the
error of the second (`r2`, validation) read, because `n2, err :=
r2.Read(buf2)` reassigns the same `err` variable.  The cursor advances by
`n1` only.  Fuel is consumed once per iteration; `none` = fuel exhausted
(the Go loop can diverge on readers that keep returning zero bytes).
The final reader states are returned so that unread trailing data is
observable. -/
def rceLoop : Nat → Nat → Nat → Nat → RState → RState →
    Option (CmpResult × RState × RState)
  | 0, _, _, _, _, _ => none
  | fuel + 1, cursor, b1, b2, s1, s2 =>
    match readBuf s1 b1 with
    | (_, RErr.ioErr m, s1') => some (CmpResult.fatalInput cursor m, s1', s2)
    | (c1, _, s1') =>
      match readBuf s2 b2 with
      | (_, RErr.ioErr m, s2') => some (CmpResult.fatalValidation cursor m, s1', s2')
      | (c2, e2, s2') =>
        if c1 = c2 then
          if e2 = RErr.eof then some (CmpResult.equal, s1', s2')
          else rceLoop fuel (cursor + c1.length) c1.length c2.length s1' s2'
        else some (CmpResult.notEqual cursor c1 c2, s1', s2')

/-- `readerContentEqual(t, r1, r2)`: both buffers start at 128 bytes and
the cursor at 0.  `r1` is the actual response body, `r2` the expected
reference stream. -/
def readerContentEqual (fuel : Nat) (r1 r2 : RState) :
    Option (CmpResult × RState × RState) :=
  rceLoop fuel 0 bufSize bufSize r1 r2

/-! ## JSON values, `json.Marshal` and decoding

The repository hands `interface{}` values to `encoding/json`.  JSON terms
are modelled by `Json`; `jsonRenderB` models the deterministic byte
output of `json.Marshal` on such a term (compact form: no spaces, fields
in order, integers rendered in decimal; the HTML escaping Go applies to
`<`, `>`, `&` is irrelevant to every input used here and not modelled).
`parseVal` models the stdlib decoder on the JSON subset needed by the
claims (null, booleans, integers, escape-free strings, arrays, objects,
with interstitial whitespace), with fuel for nesting depth. -/

mutual

/-- JSON terms (numbers restricted to integers; every concrete value in
this development is integral).  Arrays and objects use the bespoke list
types `JsonArr`/`JsonObj` so that the recursion over them stays
structural and kernel-reducible. -/
inductive Json where
  | null
  | bool (b : Bool)
  | num (i : Int)
  | str (s : String)
  | arr (xs : JsonArr)
  | obj (fs : JsonObj)

/-- A list of JSON array elements. -/
inductive JsonArr where
  | nil
  | cons (hd : Json) (tl : JsonArr)

/-- A list of JSON object fields (key/value pairs, in order). -/
inductive JsonObj where
  | nil
  | cons (key : String) (val : Json) (tl : JsonObj)

end

/-- Decimal digit bytes of a `Nat`, most significant first (empty for 0);
`fuel` bounds the number of digits and is structural so that the
definition reduces inside the kernel. -/
def natDigitsAux : Nat → Nat → Bytes
  | 0, _ => []
  | _, 0 => []
  | fuel + 1, n + 1 => natDigitsAux fuel ((n + 1) / 10) ++ [48 + (n + 1) % 10]

/-- Decimal rendering of a `Nat` (`n` itself is always enough fuel,
since a number has no more digits than its value). -/
def natRender (n : Nat) : Bytes := if n = 0 then [48] else natDigitsAux n n

/-- Decimal rendering of an `Int` (Go `strconv`-style, as used by
`json.Marshal` on integral numbers). -/
def intRender (i : Int) : Bytes :=
  if i < 0 then 45 :: natRender i.natAbs else natRender i.toNat

/-- JSON string-content escaping: quote, backslash and the common control
characters; other bytes pass through unchanged. -/
def escapeBytes : Bytes → Bytes
  | [] => []
  | b :: rest =>
    (if b = 34 then [92, 34]
     else if b = 92 then [92, 92]
     else if b = 10 then [92, 110]
     else if b = 13 then [92, 114]
     else if b = 9 then [92, 116]
     else [b]) ++ escapeBytes rest

mutual

/-- Byte output of `json.Marshal` on a `Json` term. -/
def jsonRenderB : Json → Bytes
  | Json.null => [110, 117, 108, 108]
  | Json.bool true => [116, 114, 117, 101]
  | Json.bool false => [102, 97, 108, 115, 101]
  | Json.num i => intRender i
  | Json.str s => 34 :: escapeBytes (strBytes s) ++ [34]
  | Json.arr xs => 91 :: jsonRenderArr xs ++ [93]
  | Json.obj fs => 123 :: jsonRenderObj fs ++ [125]

/-- Comma-separated rendering of array elements. -/
def jsonRenderArr : JsonArr → Bytes
  | JsonArr.nil => []
  | JsonArr.cons x JsonArr.nil => jsonRenderB x
  | JsonArr.cons x tl => jsonRenderB x ++ 44 :: jsonRenderArr tl

/-- Comma-separated rendering of object fields (`"key":value`). -/
def jsonRenderObj : JsonObj → Bytes
  | JsonObj.nil => []
  | JsonObj.cons k v JsonObj.nil =>
    34 :: escapeBytes (strBytes k) ++ [34, 58] ++ jsonRenderB v
  | JsonObj.cons k v tl =>
    34 :: escapeBytes (strBytes k) ++ [34, 58] ++ jsonRenderB v
      ++ 44 :: jsonRenderObj tl

end

/-- JSON insignificant whitespace bytes (space, tab, newline, carriage
return), as in the stdlib scanner. -/
def isJsonWs (b : Nat) : Bool := b == 32 || b == 9 || b == 10 || b == 13

/-- Drop leading JSON whitespace. -/
def skipWs (bs : Bytes) : Bytes := bs.dropWhile isJsonWs

/-- ASCII decimal digit test. -/
def isDigit (b : Nat) : Bool := 48 ≤ b && b ≤ 57

/-- Parse a nonempty run of decimal digits into its value. -/
def parseDigits (bs : Bytes) : Option (Nat × Bytes) :=
  let ds := bs.takeWhile isDigit
  if ds = [] then none
  else some (ds.foldl (fun acc d => acc * 10 + (d - 48)) 0, bs.dropWhile isDigit)

/-- Parse the remainder of a string literal after the opening quote
(escape sequences rejected; unnecessary for the inputs used here). -/
def parseStrBody (bs : Bytes) : Option (String × Bytes) :=
  let content := bs.takeWhile (fun b => !(b == 34) && !(b == 92))
  match bs.drop content.length with
  | 34 :: rest => some (String.mk (content.map Char.ofNat), rest)
  | _ => none

mutual

/-- Parse one JSON value, skipping leading whitespace; fuel bounds the
recursion depth. -/
def parseVal : Nat → Bytes → Option (Json × Bytes)
  | 0, _ => none
  | fuel + 1, bs =>
    match skipWs bs with
    | 110 :: 117 :: 108 :: 108 :: rest => some (Json.null, rest)
    | 116 :: 114 :: 117 :: 101 :: rest => some (Json.bool true, rest)
    | 102 :: 97 :: 108 :: 115 :: 101 :: rest => some (Json.bool false, rest)
    | 34 :: rest => (parseStrBody rest).map fun p => (Json.str p.1, p.2)
    | 91 :: rest =>
      (match skipWs rest with
       | 93 :: rest1 => some (Json.arr JsonArr.nil, rest1)
       | other => (parseElems fuel other).map fun p => (Json.arr p.1, p.2))
    | 123 :: rest =>
      (match skipWs rest with
       | 125 :: rest1 => some (Json.obj JsonObj.nil, rest1)
       | other => (parseFields fuel other).map fun p => (Json.obj p.1, p.2))
    | 45 :: rest => (parseDigits rest).map fun p => (Json.num (-(p.1 : Int)), p.2)
    | b :: rest =>
      if isDigit b then (parseDigits (b :: rest)).map fun p => (Json.num (p.1 : Int), p.2)
      else none
    | [] => none

/-- Parse array elements up to the closing bracket. -/
def parseElems : Nat → Bytes → Option (JsonArr × Bytes)
  | 0, _ => none
  | fuel + 1, bs =>
    match parseVal fuel bs with
    | none => none
    | some (j, rest) =>
      match skipWs rest with
      | 44 :: rest1 => (parseElems fuel rest1).map fun p => (JsonArr.cons j p.1, p.2)
      | 93 :: rest1 => some (JsonArr.cons j JsonArr.nil, rest1)
      | _ => none

/-- Parse object fields up to the closing brace. -/
def parseFields : Nat → Bytes → Option (JsonObj × Bytes)
  | 0, _ => none
  | fuel + 1, bs =>
    match skipWs bs with
    | 34 :: rest =>
      (match parseStrBody rest with
       | none => none
       | some (k, rest1) =>
         match skipWs rest1 with
         | 58 :: rest2 =>
           (match parseVal fuel rest2 with
            | none => none
            | some (v, rest3) =>
              match skipWs rest3 with
              | 44 :: rest4 => (parseFields fuel rest4).map fun p => (JsonObj.cons k v p.1, p.2)
              | 125 :: rest4 => some (JsonObj.cons k v JsonObj.nil, rest4)
              | _ => none)
         | _ => none)
    | _ => none

end

/-- Model of `json.Unmarshal`: the whole input must be one value followed
only by whitespace. -/
def jsonParse (bs : Bytes) : Option Json :=
  match parseVal (bs.length + 1) bs with
  | none => none
  | some (j, rest) => if skipWs rest = [] then some j else none

/-! ## `bytes.TrimSpace` and `io.ReadAll` -/

/-- ASCII whitespace bytes recognised by `bytes.TrimSpace` (its
`asciiSpace` table): tab, newline, vertical tab, form feed, carriage
return, space.  The multi-byte Unicode spaces Go additionally trims are
outside the ASCII inputs modelled here. -/
def isSpaceByte (b : Nat) : Bool :=
  b == 9 || b == 10 || b == 11 || b == 12 || b == 13 || b == 32

/-- `bytes.TrimSpace`: strip leading and trailing whitespace bytes. -/
def trimSpace (b : Bytes) : Bytes :=
  ((b.dropWhile isSpaceByte).reverse.dropWhile isSpaceByte).reverse

/-- `io.ReadAll` on a modelled reader: concatenate chunks until
end-of-stream (success) or a read error (reported, data discarded, as the
callers in `Request` do on a non-nil error). -/
def readAll : RState → Except String Bytes
  | [] => Except.ok []
  | (c, RErr.ok) :: rest =>
    match readAll rest with
    | Except.ok b => Except.ok (c ++ b)
    | Except.error m => Except.error m
  | (c, RErr.eof) :: _ => Except.ok c
  | (_, RErr.ioErr m) :: _ => Except.error m

/-! ## `http.Header` and canonical MIME keys -/

/-- `http.Header`: a map from canonical keys to lists of values, modelled
as an association list with unique keys. -/
abbrev Header := List (String × List String)

/-- Byte validity test from `textproto` (`validHeaderFieldByte`): digits,
letters, and the legal token punctuation. -/
def validHeaderFieldByte (b : Nat) : Bool :=
  (48 ≤ b && b ≤ 57) || (65 ≤ b && b ≤ 90) || (97 ≤ b && b ≤ 122) ||
  b == 33 || b == 35 || b == 36 || b == 37 || b == 38 || b == 39 ||
  b == 42 || b == 43 || b == 45 || b == 46 || b == 94 || b == 95 ||
  b == 96 || b == 124 || b == 126

/-- Word-capitalisation pass of `textproto.CanonicalMIMEHeaderKey`: the
first letter and each letter following a hyphen are upper-cased, all
other letters lower-cased. -/
def canonChars : Bool → List Char → List Char
  | _, [] => []
  | up, c :: rest =>
    (if up then c.toUpper else c.toLower) :: canonChars (c == '-') rest

/-- `textproto.CanonicalMIMEHeaderKey`: keys containing an invalid byte
are returned unchanged, otherwise hyphen-separated words are
capitalised. -/
def canonicalKey (s : String) : String :=
  if s.toList.all (fun c => validHeaderFieldByte c.toNat) then
    String.mk (canonChars true s.toList)
  else s

/-- Append a value under an already-canonical key, preserving the other
entries (Go map update `h[key] = append(h[key], value)`). -/
def addCanon : Header → String → String → Header
  | [], ck, v => [(ck, [v])]
  | (k0, vs) :: rest, ck, v =>
    if k0 = ck then (k0, vs ++ [v]) :: rest else (k0, vs) :: addCanon rest ck v

/-- `http.Header.Add`: canonicalise the key, then append the value. -/
def headerAdd (h : Header) (k v : String) : Header := addCanon h (canonicalKey k) v

/-- `http.Header.Set`: canonicalise the key, then replace the value list
with the single given value. -/
def setCanon : Header → String → String → Header
  | [], ck, v => [(ck, [v])]
  | (k0, vs) :: rest, ck, v =>
    if k0 = ck then (k0, [v]) :: rest else (k0, vs) :: setCanon rest ck v

/-- `http.Header.Set` (canonicalising wrapper). -/
def headerSet (h : Header) (k v : String) : Header := setCanon h (canonicalKey k) v

/-- Values stored under a key (empty list when absent). -/
def lookupVals : Header → String → Option (List String)
  | [], _ => none
  | (k0, vs) :: rest, ck => if k0 = ck then some vs else lookupVals rest ck

/-- All values recorded for a (non-canonical) key. -/
def headerValues (h : Header) (k : String) : List String :=
  (lookupVals h (canonicalKey k)).getD []

/-- `http.Header.Get`: first value under the canonical key, or `""`. -/
def headerGet (h : Header) (k : String) : String :=
  match lookupVals h (canonicalKey k) with
  | some (v :: _) => v
  | _ => ""

/-! ## The `options` record and the option constructors

The Go `options` struct holds `interface{}`/pointer fields whose only
role in `Request` is a nil test plus one use; fields whose pointed-to
value never influences control flow (`ctx`, the `unmarshalResponse` and
`responseBody` targets) are modelled by their presence.  `http.Header`
fields keep their nil/non-nil distinction via `Option Header`. -/

/-- Argument of `WithJSONRequestBody`/`ExpectedJSONResponse`: a Go
`interface{}` value handed to `json.Marshal`, either a marshalable JSON
term or a value `json.Marshal` rejects (function, channel, ...),
carrying the type description used in the error message. -/
inductive GoValue where
  | json (j : Json)
  | unsupported (desc : String)

/-- `json.Marshal` on a `GoValue`. -/
def goMarshal : GoValue → Except String Bytes
  | GoValue.json j => Except.ok (jsonRenderB j)
  | GoValue.unsupported d => Except.error ("json: unsupported type: " ++ d)

/-- The `options` struct (source lines 287-298). -/
structure Options where
  ctx : Bool := false
  responseCode : Int := 0
  requestBody : Option RState := none
  requestHeaders : Option Header := none
  responseHeaders : Option Header := none
  expectedResponse : Option RState := none
  expectedJSONResponse : Option GoValue := none
  unmarshalResponse : Bool := false
  responseBody : Bool := false
  noResponseBody : Bool := false

/-- The zero `options` value `new(options)` allocates. -/
def initOptions : Options := {}

/-- The `apply` method of the source's `Option` interface (the Lean name
avoids clashing with `Option` from core): a deferred mutation of the
configuration that may fail. -/
abbrev OptionFn := Options → Except String Options

/-- `WithContext` (the context value itself never influences the modelled
checks; only its presence is recorded). -/
def WithContext : OptionFn := fun o => Except.ok { o with ctx := true }

/-- `WithRequestBody`. -/
def WithRequestBody (body : RState) : OptionFn :=
  fun o => Except.ok { o with requestBody := some body }

/-- `WithJSONRequestBody`: marshals the value, failing with the wrapped
`json encode request body:` error exactly when `json.Marshal` fails. -/
def WithJSONRequestBody (r : GoValue) : OptionFn := fun o =>
  match goMarshal r with
  | Except.error m => Except.error ("json encode request body: " ++ m)
  | Except.ok b => Except.ok { o with requestBody := some [(b, RErr.ok)] }

/-- Boundary of the multipart writer.  Go draws it at random; no claim
depends on it, so it is modelled as a fixed string. -/
def multipartBoundary : String := "boundary"

/-- The MIME part header `WithMultipartRequest` builds: optional
`Content-Disposition` (from the filename), `Content-Type` and
`Content-Length` lines. -/
def multipartPartHeader (length : Int) (filename contentType : String) : String :=
  (if filename ≠ "" then
    "Content-Disposition: form-data; name=\"" ++ filename ++ "\"\r\n" else "") ++
  (if contentType ≠ "" then "Content-Type: " ++ contentType ++ "\r\n" else "") ++
  (if length > 0 then
    "Content-Length: " ++ String.mk ((natRender length.toNat).map Char.ofNat) ++ "\r\n"
   else "")

/-- The single-part body `multipart.Writer` produces (framing rendered in
the stdlib's shape; only the copy error path matters to any claim). -/
def multipartBody (length : Int) (filename contentType : String) (data : Bytes) : Bytes :=
  strBytes ("--" ++ multipartBoundary ++ "\r\n"
      ++ multipartPartHeader length filename contentType ++ "\r\n")
    ++ data
    ++ strBytes ("\r\n--" ++ multipartBoundary ++ "--\r\n")

/-- `WithMultipartRequest`: `mw.CreatePart` and `mw.Close` write to a
`bytes.Buffer` and cannot fail, so the only failure is `io.Copy` from the
caller's reader, wrapped as `copy file data to multipart part:`; on
success the body is set and the `Content-Type` header `Set` on the
(possibly freshly made) request header map. -/
def WithMultipartRequest (body : RState) (length : Int)
    (filename contentType : String) : OptionFn := fun o =>
  match readAll body with
  | Except.error m => Except.error ("copy file data to multipart part: " ++ m)
  | Except.ok data =>
    Except.ok { o with
      requestBody := some [(multipartBody length filename contentType data, RErr.ok)]
      requestHeaders := some (headerSet (o.requestHeaders.getD []) "Content-Type"
        ("multipart/form-data; boundary=\"" ++ multipartBoundary ++ "\"")) }

/-- `WithRequestHeader`: make the map on first use, then `Add`. -/
def WithRequestHeader (k v : String) : OptionFn := fun o =>
  Except.ok { o with requestHeaders := some (headerAdd (o.requestHeaders.getD []) k v) }

/-- `WithRequestHeaders`: replace the whole header map (possibly with
nil). -/
def WithRequestHeaders (h : Option Header) : OptionFn :=
  fun o => Except.ok { o with requestHeaders := h }

/-- `ExpectStatus`. -/
def ExpectStatus (code : Int) : OptionFn :=
  fun o => Except.ok { o with responseCode := code }

/-- `ExpectResponseHeader`: make the map on first use, then `Add`. -/
def ExpectResponseHeader (k v : String) : OptionFn := fun o =>
  Except.ok { o with responseHeaders := some (headerAdd (o.responseHeaders.getD []) k v) }

/-- `ExpectedResponse`. -/
def ExpectedResponse (r : RState) : OptionFn :=
  fun o => Except.ok { o with expectedResponse := some r }

/-- `ExpectedJSONResponse`. -/
def ExpectedJSONResponse (response : GoValue) : OptionFn :=
  fun o => Except.ok { o with expectedJSONResponse := some response }

/-- `UnmarshalJSONResponse` (the caller's target pointer is modelled by
its presence). -/
def UnmarshalJSONResponse : OptionFn :=
  fun o => Except.ok { o with unmarshalResponse := true }

/-- `PutResponseBody` (the caller's byte-slice pointer is modelled by its
presence). -/
def PutResponseBody : OptionFn :=
  fun o => Except.ok { o with responseBody := true }

/-- `ExpectNoResponseBody`. -/
def ExpectNoResponseBody : OptionFn :=
  fun o => Except.ok { o with noResponseBody := true }

/-- The option-application loop at the top of `Request` (source lines
43-47): options run in argument order, the first error stops
everything. -/
def applyOptions : List OptionFn → Options → Except String Options
  | [], o => Except.ok o
  | f :: fs, o =>
    match f o with
    | Except.error e => Except.error e
    | Except.ok o1 => applyOptions fs o1

/-! ## The response-checking phase of `Request`

`testing.TB` calls are reified as events: `t.Errorf` becomes a structured
non-fatal event carrying the arguments of its format verbs, `t.Fatal` and
`t.Fatalf` a terminal `.fatal` event (after a fatal nothing further runs,
so a fatal event always ends a trace). -/

/-- An HTTP response as `Request` consumes it: numeric status code, the
status line text (`resp.Status`, e.g. `"404 Not Found"`), headers, body
stream. -/
structure HResponse where
  statusCode : Int
  status : String
  headers : Header
  body : RState

/-- Test-reporting events.  `statusMismatch` carries the arguments of
`got response status %s, want %v %s`; `headerMismatch` those of
`got header %q value %q, want %q`; `bodyNotEqual` those of
`data not equal at position %v: got %q, want %q`; `jsonMismatch` those of
`got json response %q, want %q`; `nonEmptyBody` that of
`got response body %q, want none`.  `requestSent` marks the execution of
the HTTP round trip, `captured`/`decoded` the writes into the caller's
`PutResponseBody`/`UnmarshalJSONResponse` targets. -/
inductive TEvent where
  | fatal (msg : String)
  | statusMismatch (gotStatus : String) (wantCode : Int) (wantText : String)
  | headerMismatch (key got want : String)
  | bodyNotEqual (pos : Nat) (got want : Bytes)
  | jsonMismatch (got want : Bytes)
  | nonEmptyBody (got : Bytes)
  | requestSent
  | captured (b : Bytes)
  | decoded (j : Json)

/-- `http.StatusText` restricted to the codes used in this development
(`""` for an unknown code, as in the stdlib). -/
def statusText (code : Int) : String :=
  if code = 200 then "OK"
  else if code = 201 then "Created"
  else if code = 204 then "No Content"
  else if code = 400 then "Bad Request"
  else if code = 401 then "Unauthorized"
  else if code = 403 then "Forbidden"
  else if code = 404 then "Not Found"
  else if code = 500 then "Internal Server Error"
  else ""

/-- Status check (source lines 63-67): only a configured non-zero
expected code is compared; a mismatch is a non-fatal `t.Errorf`. -/
def statusCheckEvents (o : Options) (resp : HResponse) : List TEvent :=
  if o.responseCode = 0 then []
  else if resp.statusCode = o.responseCode then []
  else [TEvent.statusMismatch resp.status o.responseCode (statusText o.responseCode)]

/-- Expected-response-header checks (source lines 69-75): one `Get`/`Get`
comparison per key of the expectation map, each mismatch non-fatal.  (Go
iterates the map in unspecified order; the model iterates in entry
order.) -/
def headerCheckEvents (o : Options) (resp : HResponse) : List TEvent :=
  match o.responseHeaders with
  | none => []
  | some hs =>
    hs.filterMap fun kv =>
      if headerGet resp.headers kv.1 = headerGet hs kv.1 then none
      else some (TEvent.headerMismatch kv.1 (headerGet resp.headers kv.1) (headerGet hs kv.1))

/-- Message of `t.Fatalf("read input data at position %v: %v", ...)`. -/
def fatalInputMsg (pos : Nat) (m : String) : String :=
  "read input data at position " ++ toString pos ++ ": " ++ m

/-- Message of `t.Fatalf("read validation data at position %v: %v", ...)`. -/
def fatalValidationMsg (pos : Nat) (m : String) : String :=
  "read validation data at position " ++ toString pos ++ ": " ++ m

/-- The events `readerContentEqual` emits for each outcome. -/
def cmpEvents : CmpResult → List TEvent
  | CmpResult.fatalInput p m => [TEvent.fatal (fatalInputMsg p m)]
  | CmpResult.fatalValidation p m => [TEvent.fatal (fatalValidationMsg p m)]
  | CmpResult.notEqual p g w => [TEvent.bodyNotEqual p g w]
  | CmpResult.equal => []

/-- Body branch (1), source line 78: full-body stream comparison. -/
def streamCheckEvents (fuel : Nat) (body r : RState) : Option (List TEvent) :=
  (readerContentEqual fuel body r).map fun res => cmpEvents res.1

/-- Body branch (2), source lines 82-98: read everything (fatal on read
error), trim ASCII whitespace, marshal the expectation (fatal on error),
compare bytes, non-fatal mismatch. -/
def jsonEqCheckEvents (v : GoValue) (body : RState) : List TEvent :=
  match readAll body with
  | Except.error m => [TEvent.fatal m]
  | Except.ok raw =>
    match goMarshal v with
    | Except.error m => [TEvent.fatal m]
    | Except.ok want =>
      if trimSpace raw = want then []
      else [TEvent.jsonMismatch (trimSpace raw) want]

/-- Body branch (3), source lines 100-105: JSON-decode the body into the
caller's target; any decoder error is fatal.  (The streaming decoder is
modelled by reading the body and parsing its first value; it does not
require end-of-input after the value.) -/
def decodeCheckEvents (body : RState) : List TEvent :=
  match readAll body with
  | Except.error m => [TEvent.fatal m]
  | Except.ok raw =>
    match parseVal (raw.length + 1) raw with
    | none => [TEvent.fatal "json decode error"]
    | some (j, _) => [TEvent.decoded j]

/-- Body branch (4), source lines 107-114: read everything (fatal on read
error) and store it in the caller's slice. -/
def captureCheckEvents (body : RState) : List TEvent :=
  match readAll body with
  | Except.error m => [TEvent.fatal m]
  | Except.ok got => [TEvent.captured got]

/-- Body branch (5), source lines 116-124: read everything (fatal on read
error) and complain non-fatally if anything came back. -/
def emptyCheckEvents (body : RState) : List TEvent :=
  match readAll body with
  | Except.error m => [TEvent.fatal m]
  | Except.ok got =>
    if got.length > 0 then [TEvent.nonEmptyBody got] else []

/-- The body-validation chain of `Request` (source lines 77-125): five
branches tried in order, each ending in `return`, so at most one runs.
`none` propagates exhausted comparator fuel. -/
def bodyCheckEvents (fuel : Nat) (o : Options) (body : RState) : Option (List TEvent) :=
  match o.expectedResponse with
  | some r => streamCheckEvents fuel body r
  | none =>
    match o.expectedJSONResponse with
    | some v => some (jsonEqCheckEvents v body)
    | none =>
      if o.unmarshalResponse then some (decodeCheckEvents body)
      else if o.responseBody then some (captureCheckEvents body)
      else if o.noResponseBody then some (emptyCheckEvents body)
      else some []

/-- Everything `Request` does after `client.Do` succeeds: status check,
then header checks, then the body-validation chain. -/
def checkResponse (fuel : Nat) (o : Options) (resp : HResponse) : Option (List TEvent) :=
  (bodyCheckEvents fuel o resp.body).map fun be =>
    statusCheckEvents o resp ++ headerCheckEvents o resp ++ be

/-- The whole of `Request` (source lines 39-125), parameterised by the
outcome `doRes` of `client.Do` (the transport is external): options are
applied first and an option error is fatal before any request is sent; a
transport error is fatal after the send; otherwise the response is
checked.  (`http.NewRequest` validation of method/URL strings is outside
the model.) -/
def RequestModel (fuel : Nat) (opts : List OptionFn)
    (doRes : Except String HResponse) : Option (List TEvent) :=
  match applyOptions opts initOptions with
  | Except.error e => some [TEvent.fatal e]
  | Except.ok o =>
    match doRes with
    | Except.error e => some [TEvent.requestSent, TEvent.fatal e]
    | Except.ok resp =>
      (checkResponse fuel o resp).map fun evs => TEvent.requestSent :: evs

/-- The five body-validation actions, in the spec's precedence order. -/
inductive BodyCheck where
  | stream
  | jsonEq
  | decode
  | capture
  | emptyCheck
deriving DecidableEq

/-- Follows the spec's words: the body-validation options that were
configured, listed in the precedence order (1) full-body stream
comparison, (2) JSON equality, (3) JSON decode into target, (4) raw-byte
capture, (5) assert-empty-body. -/
def configuredBodyChecks (o : Options) : List BodyCheck :=
  (if o.expectedResponse.isSome then [BodyCheck.stream] else []) ++
  (if o.expectedJSONResponse.isSome then [BodyCheck.jsonEq] else []) ++
  (if o.unmarshalResponse then [BodyCheck.decode] else []) ++
  (if o.responseBody then [BodyCheck.capture] else []) ++
  (if o.noResponseBody then [BodyCheck.emptyCheck] else [])

/-- Follows the spec's words: the first configured body validation in
precedence order, if any. -/
def specFirstConfigured (o : Options) : Option BodyCheck :=
  (configuredBodyChecks o).head?

/-- Run exactly the given body-validation action (and nothing else);
`none`-selection runs nothing. -/
def runBodyCheck (fuel : Nat) (o : Options) (body : RState) :
    Option BodyCheck → Option (List TEvent)
  | some BodyCheck.stream =>
    (match o.expectedResponse with
     | some r => streamCheckEvents fuel body r
     | none => some [])
  | some BodyCheck.jsonEq =>
    (match o.expectedJSONResponse with
     | some v => some (jsonEqCheckEvents v body)
     | none => some [])
  | some BodyCheck.decode => some (decodeCheckEvents body)
  | some BodyCheck.capture => some (captureCheckEvents body)
  | some BodyCheck.emptyCheck => some (emptyCheckEvents body)
  | none => some []

/-- Flattened content of a modelled reader (all queued chunks in
order). -/
def contentOf (s : RState) : Bytes := s.foldr (fun p acc => p.1 ++ acc) []

/-- Follows the claim's words for C8: the response body, once
JSON-decoded and re-encoded, is compared byte-for-byte against the JSON
encoding of the expectation; `some true` means this comparison would
report a mismatch, `some false` that it would not. -/
def claimC8ReportsMismatch (body : Bytes) (j : Json) : Option Bool :=
  (jsonParse body).map fun d => decide (¬jsonRenderB d = jsonRenderB j)

/-- An apply function that succeeds on every configuration. -/
def neverFails (f : OptionFn) : Prop := ∀ o, ∃ o1, f o = Except.ok o1

/-! ## Sanity checks on concrete inputs -/

example : readerContentEqual 3 [(strBytes "abc", RErr.ok)] [(strBytes "abc", RErr.ok)]
    = some (CmpResult.equal, [], []) := by decide

example : readerContentEqual 3 [] [(strBytes "tail", RErr.ok)]
    = some (CmpResult.notEqual 0 [] (strBytes "tail"), [], []) := by decide

example : jsonRenderB (Json.arr (JsonArr.cons (Json.num 1) (JsonArr.cons (Json.num 2) JsonArr.nil)))
    = strBytes "[1,2]" := by decide

example : (jsonParse (strBytes "[1, 2]")).map jsonRenderB
    = some (strBytes "[1,2]") := by decide

example : trimSpace (strBytes "  ab c\n") = strBytes "ab c" := by decide

example : canonicalKey "content-type" = "Content-Type" := by decide

/-! ## Claim C2: body-validation precedence -/

/-- C2: for every configuration and response body, the body-validation
chain of `Request` performs exactly the action selected by the first
configured option in the precedence order stream comparison, JSON
equality, JSON decode, raw capture, assert-empty — any option configured
later in that order is ignored (the events are exactly those of the
selected action), and when none is configured nothing runs. -/
theorem c2_body_validation_precedence :
    ∀ (fuel : Nat) (o : Options) (body : RState),
      bodyCheckEvents fuel o body = runBodyCheck fuel o body (specFirstConfigured o) := by
  intro fuel o body
  rcases o with ⟨ctx, rc, rb, rh, resph, er, ej, um, rbo, nrb⟩
  cases er <;> cases ej <;> cases um <;> cases rbo <;> cases nrb <;> rfl

/-! ## Claim C3: option application order and fatal abort -/

/-- C3: options are applied to the configuration in argument order —
applying a concatenated list is applying the first part and then, only on
success, the rest — and when any option application returns an error,
`Request` reports exactly that error as fatal and aborts at once: the
whole trace is the single fatal event, with no request sent
(`TEvent.requestSent` absent) and no response check performed. -/
theorem c3_option_order_and_fatal_abort :
    (∀ (xs ys : List OptionFn) (o : Options),
      applyOptions (xs ++ ys) o =
        match applyOptions xs o with
        | Except.error e => Except.error e
        | Except.ok o1 => applyOptions ys o1) ∧
    (∀ (fuel : Nat) (opts : List OptionFn) (doRes : Except String HResponse) (e : String),
      applyOptions opts initOptions = Except.error e →
      RequestModel fuel opts doRes = some [TEvent.fatal e]) := by
  constructor
  · intro xs ys o
    induction xs generalizing o with
    | nil => rfl
    | cons f fs ih =>
      simp only [List.cons_append, applyOptions]
      cases hfo : f o with
      | error e => rfl
      | ok o1 => exact ih o1
  · intro fuel opts doRes e h
    simp only [RequestModel, h]

/-- Concrete instance of C3: a failing `WithJSONRequestBody` option makes
the whole run one fatal report carrying the wrapped marshal error. -/
theorem c3_witness :
    applyOptions [WithJSONRequestBody (GoValue.unsupported "func()")] initOptions
        = Except.error "json encode request body: json: unsupported type: func()" ∧
    RequestModel 1 [WithJSONRequestBody (GoValue.unsupported "func()")]
        (Except.ok { statusCode := 200, status := "200 OK", headers := [], body := [] })
        = some [TEvent.fatal "json encode request body: json: unsupported type: func()"] :=
  ⟨rfl, c3_option_order_and_fatal_abort.2 1 _ _ _ rfl⟩

/-! ## Claims C1, C4, C5: the streaming body comparator -/

/-- C1 as stated is false.  It asserts that the comparison loop
terminates when the ACTUAL response-body stream signals end-of-stream and
that trailing data remaining on one side after the other reaches
end-of-stream is not checked.  In the source, the `err == io.EOF` break
examines the error of the second read — the EXPECTED (validation)
stream — because `n2, err := r2.Read(buf2)` reassigns the same `err`;
and trailing data is checked: here the actual stream is already at
end-of-stream while the expected stream still holds `"tail"`, and the
comparator reports a non-fatal mismatch at position 0 naming that
trailing data (rather than skipping it), via
`t.Errorf("data not equal at position %v: ...")`. -/
theorem c1_counterexample :
    readerContentEqual 3 [] [(strBytes "tail", RErr.ok)]
      = some (CmpResult.notEqual 0 [] (strBytes "tail"), [], []) ∧
    cmpEvents (CmpResult.notEqual 0 [] (strBytes "tail"))
      = [TEvent.bodyNotEqual 0 [] (strBytes "tail")] :=
  ⟨by decide, rfl⟩

/-- C1 amended: the loop terminates without any mismatch report exactly
when the EXPECTED (validation) stream's read signals end-of-stream and
the two chunks of that paired read are equal; the actual stream's
remaining state `s1'` is arbitrary — so same length is not required, and
trailing data still queued on the actual side at that point is never
read or checked.  (When instead one side returns an empty chunk while
the other still returns data, the comparator reports a mismatch, as the
counterexample shows.) -/
theorem c1_amended_terminates_on_expected_eof :
    ∀ (fuel cursor b1 b2 : Nat) (s1 s2 : RState) (c1 : Bytes) (e1 : RErr)
      (s1' : RState) (c2 : Bytes) (s2' : RState),
      readBuf s1 b1 = (c1, e1, s1') → (e1 = RErr.ok ∨ e1 = RErr.eof) →
      readBuf s2 b2 = (c2, RErr.eof, s2') → c1 = c2 →
      rceLoop (fuel + 1) cursor b1 b2 s1 s2 = some (CmpResult.equal, s1', s2') := by
  intro fuel cursor b1 b2 s1 s2 c1 e1 s1' c2 s2' h1 he1 h2 hc
  subst hc
  rcases he1 with h | h <;> subst h <;>
    simp only [rceLoop, h1, h2, if_pos rfl, reduceIte]

/-- Concrete instance of the amended C1: the expected stream delivers its
final two bytes together with end-of-stream, the chunks agree, and the
loop stops reporting nothing — leaving the actual stream's trailing
bytes `[99, 100]` queued and unchecked. -/
theorem c1_amended_witness :
    readBuf [([97, 98], RErr.ok), ([99, 100], RErr.ok)] bufSize
        = ([97, 98], RErr.ok, [([99, 100], RErr.ok)]) ∧
    readBuf [([97, 98], RErr.eof)] bufSize = ([97, 98], RErr.eof, []) ∧
    rceLoop 3 0 bufSize bufSize
        [([97, 98], RErr.ok), ([99, 100], RErr.ok)] [([97, 98], RErr.eof)]
      = some (CmpResult.equal, [([99, 100], RErr.ok)], []) :=
  ⟨by decide, by decide,
    c1_amended_terminates_on_expected_eof 2 0 bufSize bufSize
      [([97, 98], RErr.ok), ([99, 100], RErr.ok)] [([97, 98], RErr.eof)]
      [97, 98] RErr.ok [([99, 100], RErr.ok)] [97, 98] []
      (by decide) (Or.inl rfl) (by decide) rfl⟩

/-- C4 as stated is false.  It asserts that both streams are read in
fixed-size 128-byte chunks compared at the same byte offset.  In the
source each iteration reslices the buffers to the byte counts just read
(`buf1 = buf1[:n1]`), and the two chunks of one paired read are compared
directly, so the read sizes are not fixed and chunks are not aligned by
offset: here the two streams hold the SAME twenty bytes, but the actual
side delivers them 10 bytes per read while the expected side delivers
all 20 at once, and the very first comparison reports a mismatch at
position 0 — under the claimed fixed-128-byte-chunk comparison the
streams would compare equal. -/
theorem c4_counterexample :
    contentOf [((List.range 20).take 10, RErr.ok), ((List.range 20).drop 10, RErr.ok)]
        = contentOf [(List.range 20, RErr.ok)] ∧
    readerContentEqual 5
        [((List.range 20).take 10, RErr.ok), ((List.range 20).drop 10, RErr.ok)]
        [(List.range 20, RErr.ok)]
      = some (CmpResult.notEqual 0 (List.range 10) (List.range 20),
              [((List.range 20).drop 10, RErr.ok)], []) :=
  ⟨by decide, by decide⟩

/-- C4 amended: the comparator reads both streams through paired read
calls with buffers of AT MOST 128 bytes — each read returns no more than
the current buffer length, and on a continuing iteration the next buffer
lengths are exactly the byte counts just read, with the cursor advancing
by the actual side's count — and it compares the two chunks of each
paired call; a pair differing in content or length is reported once,
non-fatally, with the current byte offset and both chunks (actual, then
expected), and the loop returns (no further chunks are compared). -/
theorem c4_amended_paired_reads :
    (∀ (s : RState) (b : Nat), ((readBuf s b).1).length ≤ b) ∧
    (∀ (fuel cursor b1 b2 : Nat) (s1 s2 : RState) (c1 : Bytes) (e1 : RErr)
        (s1' : RState) (c2 : Bytes) (e2 : RErr) (s2' : RState),
      readBuf s1 b1 = (c1, e1, s1') → (e1 = RErr.ok ∨ e1 = RErr.eof) →
      readBuf s2 b2 = (c2, e2, s2') → (e2 = RErr.ok ∨ e2 = RErr.eof) →
      c1 ≠ c2 →
      rceLoop (fuel + 1) cursor b1 b2 s1 s2
        = some (CmpResult.notEqual cursor c1 c2, s1', s2')) ∧
    (∀ (fuel cursor b1 b2 : Nat) (s1 s2 : RState) (c1 : Bytes) (e1 : RErr)
        (s1' : RState) (c2 : Bytes) (s2' : RState),
      readBuf s1 b1 = (c1, e1, s1') → (e1 = RErr.ok ∨ e1 = RErr.eof) →
      readBuf s2 b2 = (c2, RErr.ok, s2') → c1 = c2 →
      rceLoop (fuel + 1) cursor b1 b2 s1 s2
        = rceLoop fuel (cursor + c1.length) c1.length c2.length s1' s2') ∧
    (∀ (p : Nat) (g w : Bytes),
      cmpEvents (CmpResult.notEqual p g w) = [TEvent.bodyNotEqual p g w]) := by
  refine ⟨?_, ?_, ?_, fun p g w => rfl⟩
  · intro s b
    match s with
    | [] => simp [readBuf]
    | (c, e) :: rest =>
      by_cases hc : c.length ≤ b <;> simp [readBuf, hc]
  · intro fuel cursor b1 b2 s1 s2 c1 e1 s1' c2 e2 s2' h1 he1 h2 he2 hne
    rcases he1 with h | h <;> subst h <;> rcases he2 with h | h <;> subst h <;>
      simp only [rceLoop, h1, h2, if_neg hne]
  · intro fuel cursor b1 b2 s1 s2 c1 e1 s1' c2 s2' h1 he1 h2 hc
    subst hc
    rcases he1 with h | h <;> subst h <;>
      simp only [rceLoop, h1, h2, if_pos rfl] <;> rfl

/-- Concrete instance of the amended C4: a 10-byte read paired with a
20-byte read of identical leading bytes is reported as a mismatch at
offset 0. -/
theorem c4_amended_witness :
    ((readBuf [(List.range 20, RErr.ok)] 10).1).length ≤ 10 ∧
    rceLoop 5 0 bufSize bufSize
        [(List.range 10, RErr.ok)] [(List.range 20, RErr.ok)]
      = some (CmpResult.notEqual 0 (List.range 10) (List.range 20), [], []) :=
  ⟨c4_amended_paired_reads.1 [(List.range 20, RErr.ok)] 10,
    c4_amended_paired_reads.2.1 4 0 bufSize bufSize
      [(List.range 10, RErr.ok)] [(List.range 20, RErr.ok)]
      (List.range 10) RErr.ok [] (List.range 20) RErr.ok []
      (by decide) (Or.inl rfl) (by decide) (Or.inl rfl) (by decide)⟩

/-- C5: a read returning an error other than end-of-stream on either
stream makes the comparator call `t.Fatalf` — a fatal event, after which
nothing further runs in the invocation — and the fatal message names the
current byte position (the cursor: the bytes consumed from the actual
side so far).  An input-side error aborts before the expected side is
even read. -/
theorem c5_read_error_fatal_at_position :
    (∀ (fuel cursor b1 b2 : Nat) (s1 s2 : RState) (c1 : Bytes) (m : String)
        (s1' : RState),
      readBuf s1 b1 = (c1, RErr.ioErr m, s1') →
      rceLoop (fuel + 1) cursor b1 b2 s1 s2
        = some (CmpResult.fatalInput cursor m, s1', s2)) ∧
    (∀ (fuel cursor b1 b2 : Nat) (s1 s2 : RState) (c1 : Bytes) (e1 : RErr)
        (s1' : RState) (c2 : Bytes) (m : String) (s2' : RState),
      readBuf s1 b1 = (c1, e1, s1') → (e1 = RErr.ok ∨ e1 = RErr.eof) →
      readBuf s2 b2 = (c2, RErr.ioErr m, s2') →
      rceLoop (fuel + 1) cursor b1 b2 s1 s2
        = some (CmpResult.fatalValidation cursor m, s1', s2')) ∧
    (∀ (p : Nat) (m : String),
      cmpEvents (CmpResult.fatalInput p m) = [TEvent.fatal (fatalInputMsg p m)] ∧
      cmpEvents (CmpResult.fatalValidation p m)
        = [TEvent.fatal (fatalValidationMsg p m)]) := by
  refine ⟨?_, ?_, fun p m => ⟨rfl, rfl⟩⟩
  · intro fuel cursor b1 b2 s1 s2 c1 m s1' h1
    simp only [rceLoop, h1]
  · intro fuel cursor b1 b2 s1 s2 c1 e1 s1' c2 m s2' h1 he1 h2
    rcases he1 with h | h <;> subst h <;> simp only [rceLoop, h1, h2]

/-- Concrete instance of C5: after three equal bytes the actual stream
fails with `boom`; the comparator aborts fatally at position 3, and the
rendered message names that position.  A validation-side failure behaves
symmetrically. -/
theorem c5_witness :
    rceLoop 2 3 3 3 [([], RErr.ioErr "boom")] []
        = some (CmpResult.fatalInput 3 "boom", [], []) ∧
    rceLoop 2 3 3 3 [([7], RErr.ok)] [([], RErr.ioErr "bad")]
        = some (CmpResult.fatalValidation 3 "bad", [], []) ∧
    fatalInputMsg 3 "boom" = "read input data at position 3: boom" :=
  ⟨c5_read_error_fatal_at_position.1 1 3 3 3 [([], RErr.ioErr "boom")] []
      [] "boom" [] (by decide),
    c5_read_error_fatal_at_position.2.1 1 3 3 3 [([7], RErr.ok)] [([], RErr.ioErr "bad")]
      [7] RErr.ok [] [] "bad" [] (by decide) (Or.inl rfl) (by decide),
    by decide⟩

/-! ## Claim C6: status-code check -/

/-- C6: a configured non-zero expected status is compared against the
actual status; a mismatch yields a single non-fatal event carrying the
actual status line, the expected numeric code and its human-readable
`http.StatusText`, and the remaining checks still run (the header and
body events follow the status event in the trace); with no non-zero
expected status configured no status comparison happens at all. -/
theorem c6_status_check :
    ∀ (o : Options) (resp : HResponse),
      (o.responseCode = 0 → statusCheckEvents o resp = []) ∧
      (o.responseCode ≠ 0 → resp.statusCode = o.responseCode →
        statusCheckEvents o resp = []) ∧
      (o.responseCode ≠ 0 → resp.statusCode ≠ o.responseCode →
        statusCheckEvents o resp
          = [TEvent.statusMismatch resp.status o.responseCode
              (statusText o.responseCode)]) ∧
      (∀ (fuel : Nat) (be : List TEvent),
        bodyCheckEvents fuel o resp.body = some be →
        checkResponse fuel o resp
          = some (statusCheckEvents o resp ++ headerCheckEvents o resp ++ be)) := by
  intro o resp
  refine ⟨fun h => ?_, fun h1 h2 => ?_, fun h1 h2 => ?_, fun fuel be hb => ?_⟩
  · simp [statusCheckEvents, h]
  · simp [statusCheckEvents, h1, h2]
  · simp [statusCheckEvents, h1, h2]
  · simp [checkResponse, hb]

/-- Concrete instance of C6: expecting 404 against an actual `200 OK`
reports `404 Not Found` non-fatally and the trace still ends with the
(empty) remaining checks; expecting nothing reports nothing. -/
theorem c6_witness :
    statusCheckEvents { initOptions with responseCode := 404 }
        { statusCode := 200, status := "200 OK", headers := [], body := [] }
      = [TEvent.statusMismatch "200 OK" 404 "Not Found"] ∧
    statusCheckEvents initOptions
        { statusCode := 200, status := "200 OK", headers := [], body := [] } = [] ∧
    checkResponse 1 { initOptions with responseCode := 404 }
        { statusCode := 200, status := "200 OK", headers := [], body := [] }
      = some [TEvent.statusMismatch "200 OK" 404 "Not Found"] :=
  ⟨(c6_status_check _ _).2.2.1 (by decide) (by decide),
    (c6_status_check _ _).1 rfl,
    (c6_status_check _ _).2.2.2 1 [] rfl⟩

/-! ## Claim C7: header option algebra -/

/-- Looking up the key just added finds the appended value. -/
theorem lookupVals_addCanon_same (h : Header) (ck v : String) :
    lookupVals (addCanon h ck v) ck = some ((lookupVals h ck).getD [] ++ [v]) := by
  induction h with
  | nil => simp [addCanon, lookupVals]
  | cons kv rest ih =>
    by_cases hk : kv.1 = ck
    · simp [addCanon, lookupVals, hk]
    · simp [addCanon, lookupVals, hk, ih]

/-- Adding under one key leaves every other key's values unchanged. -/
theorem lookupVals_addCanon_other (h : Header) (ck v ck' : String) (hne : ck' ≠ ck) :
    lookupVals (addCanon h ck v) ck' = lookupVals h ck' := by
  have hne' : ¬ck = ck' := fun e => hne e.symm
  induction h with
  | nil => simp [addCanon, lookupVals, hne']
  | cons kv rest ih =>
    by_cases hk : kv.1 = ck
    · simp [addCanon, lookupVals, hk, hne']
    · by_cases hk' : kv.1 = ck' <;>
        simp [addCanon, lookupVals, hk, hk', ih, hne, hne']

/-- Adding request headers one by one onto a set header map folds
`headerAdd` over the pairs. -/
theorem applyOptions_header_adds (kvs : List (String × String)) :
    ∀ (o : Options) (h : Header),
      applyOptions (kvs.map fun p => WithRequestHeader p.1 p.2)
          { o with requestHeaders := some h }
        = Except.ok { o with
            requestHeaders := some (kvs.foldl (fun acc p => headerAdd acc p.1 p.2) h) } := by
  induction kvs with
  | nil => intro o h; rfl
  | cons kv rest ih =>
    intro o h
    simpa [applyOptions, WithRequestHeader] using ih o (headerAdd h kv.1 kv.2)

/-- C7: repeated `WithRequestHeader` options accumulate values under the
same (canonical) key without overwriting and do not disturb other keys;
`WithRequestHeaders` replaces the entire header set regardless of what
was configured before; and single-header additions after a replacement
layer on top of it, yielding the replacement set extended by the added
keys/values. -/
theorem c7_header_options :
    (∀ (h : Header) (k v : String),
      headerValues (headerAdd h k v) k = headerValues h k ++ [v]) ∧
    (∀ (h : Header) (k v k' : String), canonicalKey k' ≠ canonicalKey k →
      headerValues (headerAdd h k v) k' = headerValues h k') ∧
    (∀ (o : Options) (h : Option Header),
      WithRequestHeaders h o = Except.ok { o with requestHeaders := h }) ∧
    (∀ (o : Options) (h : Header) (kvs : List (String × String)),
      applyOptions
          (WithRequestHeaders (some h) :: kvs.map fun p => WithRequestHeader p.1 p.2) o
        = Except.ok { o with
            requestHeaders := some (kvs.foldl (fun acc p => headerAdd acc p.1 p.2) h) }) := by
  refine ⟨fun h k v => ?_, fun h k v k' hne => ?_, fun o h => rfl, fun o h kvs => ?_⟩
  · simp [headerValues, headerAdd, lookupVals_addCanon_same]
  · simp [headerValues, headerAdd, lookupVals_addCanon_other h (canonicalKey k) v _ hne]
  · simpa [applyOptions, WithRequestHeaders] using applyOptions_header_adds kvs o h

/-- Concrete instance of C7: two additions under `x-k` accumulate
`["a", "b"]` under the canonical key, an addition leaves a different key
untouched, and an addition after a full replacement yields the
replacement set plus the new key. -/
theorem c7_witness :
    headerValues (headerAdd (headerAdd [] "x-k" "a") "x-k" "b") "x-k" = ["a", "b"] ∧
    headerValues (headerAdd [] "a-key" "v") "b-key" = [] ∧
    applyOptions
        [WithRequestHeaders (some [("X-Old", ["o"])]), WithRequestHeader "x-new" "n"]
        initOptions
      = Except.ok { initOptions with
          requestHeaders := some [("X-Old", ["o"]), ("X-New", ["n"])] } :=
  ⟨c7_header_options.1 (headerAdd [] "x-k" "a") "x-k" "b",
    c7_header_options.2.1 [] "a-key" "v" "b-key" (by decide),
    c7_header_options.2.2.2 initOptions [("X-Old", ["o"])] [("x-new", "n")]⟩

/-! ## Claim C8: the JSON-equality comparison -/

/-- C8 as stated is false.  The body `"[1, 2]"` decodes to the array
`[1, 2]`, whose re-encoding equals the marshaled expectation byte for
byte, so under the claimed decode-and-re-encode comparison no mismatch
would be reported; but the code never decodes the response body — it
compares the whitespace-trimmed raw bytes against the marshaled
expectation — and `"[1, 2]"` (with its interior space) differs from the
compact `"[1,2]"` that `json.Marshal` produces, so `Request` reports a
mismatch, showing the raw trimmed body (not a re-encoding) on the `got`
side. -/
theorem c8_counterexample :
    claimC8ReportsMismatch (strBytes "[1, 2]")
        (Json.arr (JsonArr.cons (Json.num 1) (JsonArr.cons (Json.num 2) JsonArr.nil)))
      = some false ∧
    jsonEqCheckEvents
        (GoValue.json
          (Json.arr (JsonArr.cons (Json.num 1) (JsonArr.cons (Json.num 2) JsonArr.nil))))
        [(strBytes "[1, 2]", RErr.ok)]
      = [TEvent.jsonMismatch (strBytes "[1, 2]") (strBytes "[1,2]")] :=
  ⟨by decide, rfl⟩

/-- C8 amended: the raw response body bytes, trimmed of leading and
trailing ASCII whitespace (never decoded or re-encoded), are compared
byte-for-byte against the JSON encoding of the expectation; inequality is
reported as one non-fatal event showing the trimmed raw body and the
marshaled expectation. -/
theorem c8_amended_trimmed_byte_comparison :
    ∀ (j : Json) (body : Bytes),
      jsonEqCheckEvents (GoValue.json j) [(body, RErr.ok)]
        = if trimSpace body = jsonRenderB j then []
          else [TEvent.jsonMismatch (trimSpace body) (jsonRenderB j)] := by
  intro j body
  simp [jsonEqCheckEvents, readAll, goMarshal]

/-! ## Claim C9: whitespace around the JSON payload is immaterial -/

/-- A prefix every byte of which satisfies `p` is consumed whole by
`dropWhile`. -/
theorem dropWhile_nil_of_all (p : Nat → Bool) (l : Bytes) (h : ∀ a ∈ l, p a) :
    l.dropWhile p = [] := by
  induction l with
  | nil => rfl
  | cons a t ih =>
    simp only [List.dropWhile_cons, h a (List.mem_cons_self a t), if_true]
    exact ih fun b hb => h b (List.mem_cons_of_mem a hb)

/-- A fully-consumed prefix lets `dropWhile` continue into the suffix. -/
theorem dropWhile_append_of_nil (p : Nat → Bool) (x l : Bytes)
    (hx : x.dropWhile p = []) : (x ++ l).dropWhile p = l.dropWhile p := by
  induction x with
  | nil => rfl
  | cons a t ih =>
    cases ha : p a with
    | false => simp [List.dropWhile_cons, ha] at hx
    | true =>
      simp only [List.cons_append, List.dropWhile_cons, ha, if_true]
      exact ih (by simpa [List.dropWhile_cons, ha] using hx)

/-- A prefix that survives `dropWhile` stops it before the suffix. -/
theorem dropWhile_append_of_ne (p : Nat → Bool) (x l : Bytes)
    (hx : x.dropWhile p ≠ []) : (x ++ l).dropWhile p = x.dropWhile p ++ l := by
  induction x with
  | nil => exact absurd rfl hx
  | cons a t ih =>
    cases ha : p a with
    | true =>
      simp only [List.cons_append, List.dropWhile_cons, ha, if_true]
      exact ih (by simpa [List.dropWhile_cons, ha] using hx)
    | false => simp [List.dropWhile_cons, ha]

/-- Whitespace padding on either side does not change the trimmed
bytes. -/
theorem trimSpace_pad (ws1 ws2 x : Bytes)
    (h1 : ∀ a ∈ ws1, isSpaceByte a) (h2 : ∀ a ∈ ws2, isSpaceByte a) :
    trimSpace (ws1 ++ x ++ ws2) = trimSpace x := by
  unfold trimSpace
  rw [List.append_assoc,
    dropWhile_append_of_nil _ ws1 _ (dropWhile_nil_of_all _ ws1 h1)]
  by_cases hx : x.dropWhile isSpaceByte = []
  · rw [dropWhile_append_of_nil _ x _ hx, dropWhile_nil_of_all _ ws2 h2, hx]
  · rw [dropWhile_append_of_ne _ x _ hx, List.reverse_append,
      dropWhile_append_of_nil _ ws2.reverse _
        (dropWhile_nil_of_all _ ws2.reverse fun a ha => h2 a (List.mem_reverse.mp ha))]

/-- A list whose head (if any) fails the predicate is untouched by
`dropWhile`. -/
theorem dropWhile_eq_self_of_head (p : Nat → Bool) (l : Bytes)
    (h : ∀ c rest, l = c :: rest → p c = false) : l.dropWhile p = l := by
  cases l with
  | nil => rfl
  | cons c rest => simp [List.dropWhile_cons, h c rest rfl]

/-- Every byte `natDigitsAux` emits is a decimal digit. -/
theorem natDigitsAux_mem (fuel : Nat) :
    ∀ (n b : Nat), b ∈ natDigitsAux fuel n → 48 ≤ b ∧ b ≤ 57 := by
  induction fuel with
  | zero => intro n b hb; simp [natDigitsAux] at hb
  | succ f ih =>
    intro n b hb
    cases n with
    | zero => simp [natDigitsAux] at hb
    | succ m =>
      simp only [natDigitsAux, List.mem_append, List.mem_singleton] at hb
      rcases hb with hb | hb
      · exact ih _ _ hb
      · subst hb; omega

/-- A positive number with positive fuel renders at least one digit. -/
theorem natDigitsAux_ne_nil (f m : Nat) : natDigitsAux (f + 1) (m + 1) ≠ [] := by
  simp [natDigitsAux]

/-- Every byte of `natRender` is a decimal digit. -/
theorem natRender_mem (n b : Nat) (hb : b ∈ natRender n) : 48 ≤ b ∧ b ≤ 57 := by
  unfold natRender at hb
  by_cases hn : n = 0
  · rw [if_pos hn] at hb
    simp only [List.mem_singleton] at hb
    omega
  · rw [if_neg hn] at hb
    cases n with
    | zero => exact absurd rfl hn
    | succ m => exact natDigitsAux_mem (m + 1) (m + 1) b hb

/-- `natRender` never renders the empty byte string. -/
theorem natRender_ne_nil (n : Nat) : natRender n ≠ [] := by
  unfold natRender
  by_cases hn : n = 0
  · simp [hn]
  · rw [if_neg hn]
    cases n with
    | zero => exact absurd rfl hn
    | succ m => exact natDigitsAux_ne_nil m m

/-- Decimal digit bytes are not whitespace. -/
theorem not_space_of_digit (b : Nat) (h48 : 48 ≤ b) : isSpaceByte b = false := by
  simp only [isSpaceByte, Bool.or_eq_false_iff, beq_eq_false_iff_ne, ne_eq]
  omega

/-- The first byte of a nonempty all-digit byte string is not
whitespace. -/
theorem head_not_space_of_digits (l : Bytes) (hne : l ≠ [])
    (hd : ∀ b ∈ l, 48 ≤ b ∧ b ≤ 57) :
    ∃ c rest, l = c :: rest ∧ isSpaceByte c = false := by
  cases l with
  | nil => exact absurd rfl hne
  | cons c rest =>
    exact ⟨c, rest, rfl, not_space_of_digit c (hd c (List.mem_cons_self c rest)).1⟩

/-- The last byte of a nonempty all-digit byte string is not
whitespace. -/
theorem rev_head_not_space_of_digits (l : Bytes) (hne : l ≠ [])
    (hd : ∀ b ∈ l, 48 ≤ b ∧ b ≤ 57) :
    ∃ c rest, l.reverse = c :: rest ∧ isSpaceByte c = false := by
  cases hrev : l.reverse with
  | nil => exact absurd (List.reverse_eq_nil_iff.mp hrev) hne
  | cons c rest =>
    have hc : c ∈ l := by
      rw [← List.mem_reverse, hrev]
      exact List.mem_cons_self c rest
    exact ⟨c, rest, rfl, not_space_of_digit c (hd c hc).1⟩

/-- `intRender` starts with a minus sign or a digit — never
whitespace. -/
theorem intRender_head (i : Int) :
    ∃ c rest, intRender i = c :: rest ∧ isSpaceByte c = false := by
  unfold intRender
  by_cases hi : i < 0
  · exact ⟨45, natRender i.natAbs, by rw [if_pos hi], rfl⟩
  · rw [if_neg hi]
    exact head_not_space_of_digits _ (natRender_ne_nil _) fun b hb => natRender_mem _ b hb

/-- `intRender` ends with a digit — never whitespace. -/
theorem intRender_last (i : Int) :
    ∃ c rest, (intRender i).reverse = c :: rest ∧ isSpaceByte c = false := by
  unfold intRender
  by_cases hi : i < 0
  · rw [if_pos hi]
    obtain ⟨c, rest, hcr, hc⟩ :=
      rev_head_not_space_of_digits (natRender i.natAbs) (natRender_ne_nil _)
        fun b hb => natRender_mem _ b hb
    exact ⟨c, rest ++ [45], by rw [List.reverse_cons, hcr, List.cons_append], hc⟩
  · rw [if_neg hi]
    exact rev_head_not_space_of_digits _ (natRender_ne_nil _) fun b hb => natRender_mem _ b hb

/-- The first byte of a marshaled JSON value is never whitespace. -/
theorem jsonRenderB_head (j : Json) :
    ∃ c rest, jsonRenderB j = c :: rest ∧ isSpaceByte c = false := by
  cases j with
  | null => exact ⟨110, [117, 108, 108], rfl, rfl⟩
  | bool b =>
    cases b with
    | true => exact ⟨116, [114, 117, 101], rfl, rfl⟩
    | false => exact ⟨102, [97, 108, 115, 101], rfl, rfl⟩
  | num i => exact intRender_head i
  | str s => exact ⟨34, escapeBytes (strBytes s) ++ [34], by simp [jsonRenderB], rfl⟩
  | arr xs => exact ⟨91, jsonRenderArr xs ++ [93], by simp [jsonRenderB], rfl⟩
  | obj fs => exact ⟨123, jsonRenderObj fs ++ [125], by simp [jsonRenderB], rfl⟩

/-- The last byte of a marshaled JSON value is never whitespace. -/
theorem jsonRenderB_last (j : Json) :
    ∃ c rest, (jsonRenderB j).reverse = c :: rest ∧ isSpaceByte c = false := by
  cases j with
  | null => exact ⟨108, [108, 117, 110], by decide, rfl⟩
  | bool b =>
    cases b with
    | true => exact ⟨101, [117, 114, 116], by decide, rfl⟩
    | false => exact ⟨101, [115, 108, 97, 102], by decide, rfl⟩
  | num i => exact intRender_last i
  | str s =>
    exact ⟨34, (escapeBytes (strBytes s)).reverse ++ [34], by simp [jsonRenderB], rfl⟩
  | arr xs =>
    exact ⟨93, (jsonRenderArr xs).reverse ++ [91], by simp [jsonRenderB], rfl⟩
  | obj fs =>
    exact ⟨125, (jsonRenderObj fs).reverse ++ [123], by simp [jsonRenderB], rfl⟩

/-- Marshaled JSON has no whitespace to trim at either end. -/
theorem trimSpace_renderB (j : Json) : trimSpace (jsonRenderB j) = jsonRenderB j := by
  obtain ⟨c, rest, hh, hc⟩ := jsonRenderB_head j
  obtain ⟨c2, rest2, hl, hc2⟩ := jsonRenderB_last j
  have hdrop : (jsonRenderB j).dropWhile isSpaceByte = jsonRenderB j :=
    dropWhile_eq_self_of_head isSpaceByte (jsonRenderB j) fun a r heq => by
      rw [hh] at heq
      injection heq with e1 e2
      rw [← e1]; exact hc
  have hdrop2 : ((jsonRenderB j).reverse).dropWhile isSpaceByte
      = (jsonRenderB j).reverse :=
    dropWhile_eq_self_of_head isSpaceByte (jsonRenderB j).reverse fun a r heq => by
      rw [hl] at heq
      injection heq with e1 e2
      rw [← e1]; exact hc2
  unfold trimSpace
  rw [hdrop, hdrop2, List.reverse_reverse]

/-- C9: the actual response body is whitespace-trimmed before the
JSON-equality comparison, so a body that is the marshaled expectation
surrounded by any leading and trailing whitespace (for example a
trailing newline) compares equal and reports nothing. -/
theorem c9_whitespace_trimmed_json_equal :
    ∀ (j : Json) (ws1 ws2 : Bytes),
      (∀ a ∈ ws1, isSpaceByte a) → (∀ a ∈ ws2, isSpaceByte a) →
      jsonEqCheckEvents (GoValue.json j)
        [(ws1 ++ jsonRenderB j ++ ws2, RErr.ok)] = [] := by
  intro j ws1 ws2 h1 h2
  simp only [jsonEqCheckEvents, readAll, goMarshal, List.append_nil]
  rw [trimSpace_pad ws1 ws2 _ h1 h2, trimSpace_renderB, if_pos rfl]

/-- Concrete instance of C9: a response whose body is the marshaled
object followed by a newline reports no mismatch. -/
theorem c9_witness :
    jsonEqCheckEvents
        (GoValue.json (Json.obj (JsonObj.cons "message" (Json.str "ok") JsonObj.nil)))
        [(strBytes "\x7b\"message\":\"ok\"\x7d\n", RErr.ok)] = [] :=
  c9_whitespace_trimmed_json_equal
    (Json.obj (JsonObj.cons "message" (Json.str "ok") JsonObj.nil)) [] [10]
    (by decide) (by decide)

/-! ## Claim C10: which option constructors can fail -/

/-- C10: of the thirteen option constructors, the eleven other than
`WithJSONRequestBody` and `WithMultipartRequest` return nil errors from
their apply functions on every configuration and with any arguments;
`WithJSONRequestBody` and `WithMultipartRequest` can return errors (a
JSON marshal failure, a failure of the copy from the part reader); and
applying any list of never-failing options cannot abort — so a `Request`
whose options avoid those two constructors never dies in the
option-application stage. -/
theorem c10_only_two_options_can_fail :
    neverFails WithContext ∧
    (∀ b, neverFails (WithRequestBody b)) ∧
    (∀ k v, neverFails (WithRequestHeader k v)) ∧
    (∀ h, neverFails (WithRequestHeaders h)) ∧
    (∀ c, neverFails (ExpectStatus c)) ∧
    (∀ k v, neverFails (ExpectResponseHeader k v)) ∧
    (∀ r, neverFails (ExpectedResponse r)) ∧
    (∀ v, neverFails (ExpectedJSONResponse v)) ∧
    neverFails UnmarshalJSONResponse ∧
    neverFails PutResponseBody ∧
    neverFails ExpectNoResponseBody ∧
    (∃ v o e, WithJSONRequestBody v o = Except.error e) ∧
    (∃ b len fn ct o e, WithMultipartRequest b len fn ct o = Except.error e) ∧
    (∀ (opts : List OptionFn) (o : Options),
      (∀ f ∈ opts, neverFails f) → ∃ o1, applyOptions opts o = Except.ok o1) := by
  refine ⟨fun o => ⟨_, rfl⟩, fun b o => ⟨_, rfl⟩, fun k v o => ⟨_, rfl⟩,
    fun h o => ⟨_, rfl⟩, fun c o => ⟨_, rfl⟩, fun k v o => ⟨_, rfl⟩,
    fun r o => ⟨_, rfl⟩, fun v o => ⟨_, rfl⟩, fun o => ⟨_, rfl⟩,
    fun o => ⟨_, rfl⟩, fun o => ⟨_, rfl⟩,
    ⟨GoValue.unsupported "chan int", initOptions, _, rfl⟩,
    ⟨[([], RErr.ioErr "read failed")], 0, "", "", initOptions, _, rfl⟩, ?_⟩
  intro opts
  induction opts with
  | nil => exact fun o _ => ⟨o, rfl⟩
  | cons f fs ih =>
    intro o hall
    obtain ⟨o1, ho1⟩ := hall f (List.mem_cons_self f fs) o
    obtain ⟨o2, ho2⟩ := ih o1 fun g hg => hall g (List.mem_cons_of_mem f hg)
    exact ⟨o2, by simp [applyOptions, ho1, ho2]⟩

/-- Concrete instance of C10: a list built from three of the other eleven
constructors applies without any possibility of a fatal abort. -/
theorem c10_witness :
    ∃ o1, applyOptions [WithContext, ExpectStatus 200, ExpectNoResponseBody] initOptions
        = Except.ok o1 :=
  c10_only_two_options_can_fail.2.2.2.2.2.2.2.2.2.2.2.2.2
    [WithContext, ExpectStatus 200, ExpectNoResponseBody] initOptions
    (fun f hf => by
      rcases List.mem_cons.mp hf with h | hf1
      · rw [h]; exact c10_only_two_options_can_fail.1
      · rcases List.mem_cons.mp hf1 with h | hf2
        · rw [h]; exact c10_only_two_options_can_fail.2.2.2.2.1 200
        · rcases List.mem_cons.mp hf2 with h | hf3
          · rw [h]; exact c10_only_two_options_can_fail.2.2.2.2.2.2.2.2.2.2.1
          · exact absurd hf3 (List.not_mem_nil f))

end Httpapitest
